import Mathlib

/-!
Verification of the acad-service HTTP handlers
(src/DOCKER/acad-service/main.py).

The service reads academic records from an external relational store and
exposes three endpoints: a health check, a student roster listing
(`GET /api/acad/mahasiswa`) and a GPA computation (`GET /api/acad/ips`).
The database is external, so handlers are embedded as functions of the row
sequences the store returns (and, for the claim about the SQL filter, of a
model of the three relations together with the join query).

Python exceptions are embedded with `Except`; machine floats are embedded
as rationals (all grade weights are exact decimals, so the arithmetic of
the loop is exact; `round(x, 2)` is embedded as rounding `x * 100` to the
nearest integer).
-/

namespace AcadService

/-- A Python exception relevant to these handlers: FastAPI's
`HTTPException(status_code, detail)` or a `ZeroDivisionError`.
Both derive from `Exception`, so both are caught by a bare
`except Exception` clause. -/
inductive PyExc where
  | httpException (status : Nat) (detail : String)
  | zeroDivisionError
deriving DecidableEq, Repr

/-- `str(e)` for the exceptions above: Starlette's `HTTPException.__str__`
renders `f"{status_code}: {detail}"`; `ZeroDivisionError` renders its
message. -/
def strOfExc : PyExc → String
  | .httpException s d => toString s ++ ": " ++ d
  | .zeroDivisionError => "division by zero"

/-- One row of the joined query of `get_ips` (main.py lines 90-96):
`SELECT m.nim, m.nama, m.jurusan, krs.nilai, mk.sks`. -/
structure IpsRow where
  nim : String
  nama : String
  jurusan : String
  nilai : String
  sks : ℤ
deriving DecidableEq, Repr

/-- The `konversi` dict of main.py lines 107-116, as a lookup function:
`konversi.get(huruf)` -/
def konversi (huruf : String) : Option ℚ :=
  if huruf = "A" then some 4
  else if huruf = "B+" then some (7/2)
  else if huruf = "B" then some 3
  else if huruf = "B-" then some (11/4)
  else if huruf = "C+" then some (5/2)
  else if huruf = "C" then some 2
  else if huruf = "D" then some 1
  else if huruf = "E" then some 0
  else none

/-- `konversi.get(huruf, 0)` (main.py line 125). -/
def bobot (huruf : String) : ℚ := (konversi huruf).getD 0

/-- The accumulation loop of main.py lines 118-127: starting from
`total_bobot = 0, total_sks = 0`, each row adds `bobot * sks` and `sks`. -/
def totals (rows : List IpsRow) : ℚ × ℤ :=
  rows.foldl
    (fun acc row => (acc.1 + bobot row.nilai * (row.sks : ℚ), acc.2 + row.sks))
    (0, 0)

/-- Python's `round(q, 2)` on the exact value: round `q * 100` to the
nearest integer and divide back. (Tie-breaking of the host runtime is not
exercised by any concrete value in this development.) -/
def roundTo2 (q : ℚ) : ℚ := ((round (q * 100) : ℤ) : ℚ) / 100

/-- Main.py lines 106-129: run the conversion loop, then
`ips = round(total_bobot / total_sks, 2)`. A zero `total_sks` raises
`ZeroDivisionError` in Python; with a nonzero total the pair
`(ips, total_sks)` is produced. -/
def gpaCalc (rows : List IpsRow) : Except PyExc (ℚ × ℤ) :=
  let t := totals rows
  if t.2 = 0 then .error .zeroDivisionError
  else .ok (roundTo2 (t.1 / (t.2 : ℚ)), t.2)

/-- The JSON object returned by `get_ips` (main.py lines 131-137). -/
structure IpsResponse where
  nim : String
  nama : String
  jurusan : String
  ips : ℚ
  total_sks : ℤ
deriving DecidableEq, Repr

/-- The detail string of the 404 raised at main.py lines 101-104. -/
def notFoundDetail : String :=
  "Data mahasiswa tidak ditemukan atau belum mengambil mata kuliah"

/-- The body of the `try` block of `get_ips` (main.py lines 86-137), as a
function of the fetched rows: raise `HTTPException(404, ...)` when `rows`
is empty, otherwise compute the GPA and build the response from `rows[0]`. -/
def get_ips_body (rows : List IpsRow) : Except PyExc IpsResponse :=
  match rows with
  | [] => .error (.httpException 404 notFoundDetail)
  | r0 :: _ =>
    match gpaCalc rows with
    | .error e => .error e
    | .ok (ips, total_sks) => .ok ⟨r0.nim, r0.nama, r0.jurusan, ips, total_sks⟩

/-- What an endpoint call produces: a successful JSON payload, or an HTTP
error response with a status code and detail string. -/
inductive HandlerResult (α : Type) where
  | success (resp : α)
  | failure (status : Nat) (detail : String)
deriving DecidableEq, Repr

/-- The whole `get_ips` handler (main.py lines 83-140). The
`except Exception as e` clause at lines 139-140 catches EVERY exception
raised in the `try` block — including the `HTTPException(404, ...)` of
line 101, since FastAPI's `HTTPException` subclasses `Exception` — and
re-raises `HTTPException(500, str(e))`. -/
def get_ips (rows : List IpsRow) : HandlerResult IpsResponse :=
  match get_ips_body rows with
  | .ok resp => .success resp
  | .error e => .failure 500 (strOfExc e)

/-- The JSON object of one roster entry (main.py line 76). -/
structure MahasiswaObj where
  nim : String
  nama : String
  jurusan : String
  angkatan : ℤ
deriving DecidableEq, Repr

/-- The `get_mahasiswas` handler body (main.py lines 75-78): one object per
fetched row, fields taken from the row's columns 0..3. A row of
`SELECT * FROM mahasiswa` is embedded as a positional 4-tuple. -/
def get_mahasiswas (rows : List (String × String × String × ℤ)) :
    List MahasiswaObj :=
  rows.map fun r => ⟨r.1, r.2.1, r.2.2.1, r.2.2.2⟩

/-- One row of the `krs` relation (enrollment records). -/
structure KrsRow where
  nim : String
  kode_mk : String
  nilai : String
deriving DecidableEq, Repr

/-- One row of the `mata_kuliah` relation (course catalog). -/
structure MataKuliahRow where
  kode_mk : String
  sks : ℤ
deriving DecidableEq, Repr

/-- The external store: the three relations read by the service.
A `mahasiswa` row is the positional tuple (nim, nama, jurusan, angkatan). -/
structure AcadDB where
  mahasiswa : List (String × String × String × ℤ)
  krs : List KrsRow
  mata_kuliah : List MataKuliahRow

/-- The join query of main.py lines 90-96 under standard SQL semantics:
filtered cross product of `mahasiswa`, `krs` and `mata_kuliah` with join
conditions `krs.nim = m.nim`, `mk.kode_mk = krs.kode_mk` and filter
`m.nim = %s`, projected to (m.nim, m.nama, m.jurusan, krs.nilai, mk.sks). -/
def ipsQuery (db : AcadDB) (nim : String) : List IpsRow :=
  db.mahasiswa.flatMap fun m =>
    db.krs.flatMap fun k =>
      db.mata_kuliah.flatMap fun mk =>
        if k.nim = m.1 ∧ mk.kode_mk = k.kode_mk ∧ m.1 = nim then
          [⟨m.1, m.2.1, m.2.2.1, k.nilai, mk.sks⟩]
        else []

/-- Observable events on the scoped database connection of
`get_db_connection` (main.py lines 37-47). -/
inductive DBEvent where
  | connect
  | commit
  | rollback
  | close
deriving DecidableEq, Repr

/-- The `try/except` part of `get_db_connection` (main.py lines 40-45):
if the enclosed body (the code run at the `yield` point) completes,
`conn.commit()` runs; if it raises, the `except Exception` clause runs
`conn.rollback()` and re-raises the same exception. -/
def connTryExcept {α : Type} (body : Except PyExc α) :
    List DBEvent × Except PyExc α :=
  match body with
  | .ok a => ([DBEvent.commit], .ok a)
  | .error e => ([DBEvent.rollback], .error e)

/-- The whole `get_db_connection` context manager (main.py lines 37-47):
`conn = psycopg2.connect(...)` acquires the connection, then the
`try/except` above runs, and the `finally` clause runs `conn.close()` on
every exit path. Returns the event trace and the propagated outcome. -/
def get_db_connection {α : Type} (body : Except PyExc α) :
    List DBEvent × Except PyExc α :=
  let t := connTryExcept body
  (DBEvent.connect :: t.1 ++ [DBEvent.close], t.2)

/-- Spec-side formula: `total_weighted = Σ(weight_i × credit_hours_i)`. -/
def sumWeighted (rows : List IpsRow) : ℚ :=
  (rows.map fun r => bobot r.nilai * (r.sks : ℚ)).sum

/-- Spec-side formula: `total_credits = Σ credit_hours_i`. -/
def sumSks (rows : List IpsRow) : ℤ :=
  (rows.map fun r => r.sks).sum

/-- A row carrying only the (grade, credit-hours) data the calculator
reads; identity fields are blank. -/
def pairRow (g : String) (s : ℤ) : IpsRow := ⟨"", "", "", g, s⟩

/-! ### Helper lemmas -/

theorem totals_go (l : List IpsRow) (a : ℚ) (b : ℤ) :
    l.foldl
      (fun acc row => (acc.1 + bobot row.nilai * (row.sks : ℚ), acc.2 + row.sks))
      (a, b) = (a + sumWeighted l, b + sumSks l) := by
  induction l generalizing a b with
  | nil => simp [sumWeighted, sumSks]
  | cons r t ih =>
    rw [List.foldl_cons, ih]
    simp only [sumWeighted, sumSks, List.map_cons, List.sum_cons, Prod.mk.injEq]
    constructor <;> ring

/-- The accumulation loop computes exactly the two sums of the spec. -/
theorem totals_eq (rows : List IpsRow) :
    totals rows = (sumWeighted rows, sumSks rows) := by
  simpa using totals_go rows 0 0

/-- Every weight produced by the lookup (the default 0 included) is one of
the table's values. -/
theorem bobot_cases (g : String) :
    bobot g = 4 ∨ bobot g = 7/2 ∨ bobot g = 3 ∨ bobot g = 11/4 ∨
    bobot g = 5/2 ∨ bobot g = 2 ∨ bobot g = 1 ∨ bobot g = 0 := by
  unfold bobot konversi
  split_ifs <;> simp

theorem bobot_nonneg (g : String) : 0 ≤ bobot g := by
  rcases bobot_cases g with h | h | h | h | h | h | h | h <;> rw [h] <;> norm_num

theorem bobot_le_four (g : String) : bobot g ≤ 4 := by
  rcases bobot_cases g with h | h | h | h | h | h | h | h <;> rw [h] <;> norm_num

/-- A successful lookup yields one of the eight table values. -/
theorem konversi_mem (g : String) (w : ℚ) (h : konversi g = some w) :
    w = 4 ∨ w = 7/2 ∨ w = 3 ∨ w = 11/4 ∨ w = 5/2 ∨ w = 2 ∨ w = 1 ∨ w = 0 := by
  unfold konversi at h
  split_ifs at h <;> simp_all

theorem roundTo2_mono {q r : ℚ} (h : q ≤ r) : roundTo2 q ≤ roundTo2 r := by
  unfold roundTo2
  have hr : round (q * 100) ≤ round (r * 100) := by
    rw [round_eq, round_eq]
    exact Int.floor_mono (by linarith)
  have : ((round (q * 100) : ℤ) : ℚ) ≤ ((round (r * 100) : ℤ) : ℚ) := by
    exact_mod_cast hr
  linarith

theorem roundTo2_zero : roundTo2 0 = 0 := by
  norm_num [roundTo2]

theorem roundTo2_four : roundTo2 4 = 4 := by
  norm_num [roundTo2]

/-- Rounding a table value changes nothing: all weights have at most two
fractional digits. -/
theorem roundTo2_of_konversi (g : String) (w : ℚ) (h : konversi g = some w) :
    roundTo2 w = w := by
  rcases konversi_mem g w h with h' | h' | h' | h' | h' | h' | h' | h' <;>
    subst h' <;> norm_num [roundTo2, round_eq]

theorem sumSks_pos (rows : List IpsRow) (hne : rows ≠ [])
    (hpos : ∀ r ∈ rows, 0 < r.sks) : 0 < sumSks rows := by
  unfold sumSks
  apply List.sum_pos
  · intro s hs
    rcases List.mem_map.mp hs with ⟨r, hr, rfl⟩
    exact hpos r hr
  · simpa using hne

theorem sumWeighted_nonneg (rows : List IpsRow)
    (hpos : ∀ r ∈ rows, 0 ≤ r.sks) : 0 ≤ sumWeighted rows := by
  unfold sumWeighted
  apply List.sum_nonneg
  intro x hx
  rcases List.mem_map.mp hx with ⟨r, hr, rfl⟩
  have := hpos r hr
  have : (0 : ℚ) ≤ (r.sks : ℚ) := by exact_mod_cast this
  exact mul_nonneg (bobot_nonneg _) this

theorem sumWeighted_le (rows : List IpsRow)
    (hpos : ∀ r ∈ rows, 0 ≤ r.sks) :
    sumWeighted rows ≤ 4 * (sumSks rows : ℚ) := by
  unfold sumWeighted sumSks
  have hle : (rows.map fun r => bobot r.nilai * (r.sks : ℚ)).sum ≤
      (rows.map fun r => 4 * (r.sks : ℚ)).sum := by
    apply List.sum_le_sum
    intro r hr
    have h0 : (0 : ℚ) ≤ (r.sks : ℚ) := by exact_mod_cast hpos r hr
    exact mul_le_mul_of_nonneg_right (bobot_le_four _) h0
  have hcast : (((rows.map fun r => r.sks).sum : ℤ) : ℚ) =
      (rows.map fun r => (r.sks : ℚ)).sum := by
    rw [Int.cast_list_sum, List.map_map]
    rfl
  rw [hcast]
  calc (rows.map fun r => bobot r.nilai * (r.sks : ℚ)).sum
      ≤ (rows.map fun r => 4 * (r.sks : ℚ)).sum := hle
    _ = 4 * (rows.map fun r => (r.sks : ℚ)).sum :=
        List.sum_map_mul_left rows (fun r => (r.sks : ℚ)) 4

/-- Every row produced by the join query carries the requested `nim` in its
first column, because of the `WHERE m.nim = %s` filter. -/
theorem mem_ipsQuery (db : AcadDB) (nim : String) (r : IpsRow)
    (h : r ∈ ipsQuery db nim) : r.nim = nim := by
  unfold ipsQuery at h
  rcases List.mem_flatMap.mp h with ⟨m, _, h⟩
  rcases List.mem_flatMap.mp h with ⟨k, _, h⟩
  rcases List.mem_flatMap.mp h with ⟨mk, _, h⟩
  split_ifs at h with hc
  · rcases List.mem_singleton.mp h with rfl
    exact hc.2.2
  · simp at h

/-- The calculator on a non-empty row sequence with positive credit-hours:
the zero-divisor branch is not taken and the result is the rounded
credit-weighted mean together with the credit total. -/
theorem gpaCalc_eq_of_pos (rows : List IpsRow) (hne : rows ≠ [])
    (hpos : ∀ r ∈ rows, 0 < r.sks) :
    gpaCalc rows =
      .ok (roundTo2 (sumWeighted rows / (sumSks rows : ℚ)), sumSks rows) := by
  have hS := sumSks_pos rows hne hpos
  have hne' : sumSks rows ≠ 0 := ne_of_gt hS
  unfold gpaCalc
  rw [totals_eq]
  simp [hne']

/-- A sample store for evaluating the join query at a concrete input. -/
def sampleDB : AcadDB :=
  { mahasiswa := [("123", "Budi", "TI", 2020)]
    krs := [⟨"123", "MK1", "A"⟩]
    mata_kuliah := [⟨"MK1", 3⟩] }

/-! ### Claims -/

/-- C1: the claim says a request whose `nim` has no joined enrollment rows
is answered with HTTP 404 and not converted into a 500. The code violates
this: the `HTTPException(404, ...)` raised for empty rows is itself an
`Exception`, so the blanket `except Exception` clause of lines 139-140
catches it and re-raises `HTTPException(500, str(e))`; the caller receives
a 500 whose detail merely quotes the intended 404. -/
theorem C1_empty_rows_give_500_not_404 :
    get_ips [] =
      HandlerResult.failure 500
        ("404: Data mahasiswa tidak ditemukan atau belum mengambil mata kuliah") := by
  rfl

/-- C2: on every non-empty row sequence with positive credit-hours the
computation returns `ips = round(Σ(weight × sks) / Σ sks, 2)` and
`total_sks = Σ sks`; in particular `[("A",3), ("B+",3)]` yields
`ips = 3.75` and `total_sks = 6`. -/
theorem C2_weighted_mean_formula :
    (∀ rows : List IpsRow, rows ≠ [] → (∀ r ∈ rows, 0 < r.sks) →
        gpaCalc rows =
          .ok (roundTo2 (sumWeighted rows / (sumSks rows : ℚ)), sumSks rows)) ∧
    gpaCalc [pairRow "A" 3, pairRow "B+" 3] = .ok (15/4, 6) := by
  constructor
  · exact gpaCalc_eq_of_pos
  · simp [gpaCalc, totals, pairRow, bobot, konversi, roundTo2, round_eq]
    norm_num

/-- C2 witness: the formula instantiated at the single row ("A", 3). -/
theorem C2_weighted_mean_formula_witness :
    gpaCalc [pairRow "A" 3] =
      .ok (roundTo2 (sumWeighted [pairRow "A" 3] /
            (sumSks [pairRow "A" 3] : ℚ)), sumSks [pairRow "A" 3]) :=
  C2_weighted_mean_formula.1 [pairRow "A" 3] (by simp)
    (by intro r hr; simp at hr; subst hr; decide)

/-- C3: a pair with an unrecognized grade contributes weight 0 to the
weighted sum without raising an error, while its credit-hours still count;
for the single pair ("F", 3) the result is `ips = 0` and `total_sks = 3`. -/
theorem C3_unrecognized_grade_weight_zero :
    (∀ (l₁ l₂ : List IpsRow) (r : IpsRow), konversi r.nilai = none →
        sumWeighted (l₁ ++ r :: l₂) = sumWeighted (l₁ ++ l₂) ∧
        sumSks (l₁ ++ r :: l₂) = sumSks (l₁ ++ l₂) + r.sks) ∧
    gpaCalc [pairRow "F" 3] = .ok (0, 3) := by
  constructor
  · intro l₁ l₂ r h
    have hb : bobot r.nilai = 0 := by unfold bobot; rw [h]; rfl
    unfold sumWeighted sumSks
    simp only [List.map_append, List.map_cons, List.sum_append, List.sum_cons,
      hb, zero_mul, zero_add]
    constructor
    · trivial
    · ring
  · simp [gpaCalc, totals, pairRow, bobot, konversi, roundTo2, round_eq]
    norm_num

/-- C3 witness: inserting ("F", 2) between ("A", 3) and ("B", 1) leaves the
weighted sum unchanged and adds 2 to the credit total. -/
theorem C3_unrecognized_grade_weight_zero_witness :
    sumWeighted [pairRow "A" 3, pairRow "F" 2, pairRow "B" 1] =
      sumWeighted [pairRow "A" 3, pairRow "B" 1] ∧
    sumSks [pairRow "A" 3, pairRow "F" 2, pairRow "B" 1] =
      sumSks [pairRow "A" 3, pairRow "B" 1] + 2 :=
  C3_unrecognized_grade_weight_zero.1 [pairRow "A" 3] [pairRow "B" 1]
    (pairRow "F" 2) (by rfl)

/-- C4: under the precondition (non-empty rows, positive credit-hours) the
division `total_bobot / total_sks` never divides by zero, and on the empty
sequence the not-found error path is taken before any division. -/
theorem C4_division_safe :
    (∀ rows : List IpsRow, rows ≠ [] → (∀ r ∈ rows, 0 < r.sks) →
        ∃ p, gpaCalc rows = .ok p) ∧
    get_ips_body [] = .error (.httpException 404 notFoundDetail) := by
  constructor
  · intro rows hne hpos
    exact ⟨_, gpaCalc_eq_of_pos rows hne hpos⟩
  · rfl

/-- C4 witness: instantiated at the single row ("B", 2). -/
theorem C4_division_safe_witness :
    (∃ p, gpaCalc [pairRow "B" 2] = .ok p) ∧
    get_ips_body [] = .error (.httpException 404 notFoundDetail) :=
  ⟨C4_division_safe.1 [pairRow "B" 2] (by simp)
      (by intro r hr; simp at hr; subst hr; decide),
    C4_division_safe.2⟩

/-- C5: the computed pair (ips, total_sks) is invariant under permutation
of the input rows. -/
theorem C5_permutation_invariant (l₁ l₂ : List IpsRow) (h : l₁.Perm l₂) :
    gpaCalc l₁ = gpaCalc l₂ := by
  have hW : sumWeighted l₁ = sumWeighted l₂ :=
    List.Perm.sum_eq (h.map fun r => bobot r.nilai * (r.sks : ℚ))
  have hS : sumSks l₁ = sumSks l₂ := List.Perm.sum_eq (h.map fun r => r.sks)
  unfold gpaCalc
  rw [totals_eq, totals_eq, hW, hS]

/-- C5 witness: swapping the two rows of scenario A gives the same result. -/
theorem C5_permutation_invariant_witness :
    gpaCalc [pairRow "A" 3, pairRow "B+" 3] =
      gpaCalc [pairRow "B+" 3, pairRow "A" 3] :=
  C5_permutation_invariant _ _ (by decide)

/-- C6: the context manager closes the acquired connection exactly once on
every exit path; on normal completion the trace is connect, commit, close
and the value is passed through; when the enclosed body raises, the trace
is connect, rollback, close and the same exception is re-raised. -/
theorem C6_connection_closed_exactly_once (α : Type)
    (body : Except PyExc α) :
    (get_db_connection body).1.count DBEvent.close = 1 ∧
    (get_db_connection body).2 = body ∧
    (∀ a : α, body = .ok a →
        (get_db_connection body).1 =
          [DBEvent.connect, DBEvent.commit, DBEvent.close]) ∧
    (∀ e : PyExc, body = .error e →
        (get_db_connection body).1 =
          [DBEvent.connect, DBEvent.rollback, DBEvent.close]) := by
  cases body <;>
    simp [get_db_connection, connTryExcept, List.count_cons, List.count_nil]

/-- C6 witness: the normal path at a concrete body value. -/
theorem C6_connection_closed_exactly_once_witness :
    (get_db_connection (Except.ok 7 : Except PyExc ℕ)).1.count
        DBEvent.close = 1 ∧
    (get_db_connection (Except.ok 7 : Except PyExc ℕ)).1 =
      [DBEvent.connect, DBEvent.commit, DBEvent.close] :=
  ⟨(C6_connection_closed_exactly_once ℕ (.ok 7)).1,
    (C6_connection_closed_exactly_once ℕ (.ok 7)).2.2.1 7 rfl⟩

/-- C7: for non-empty input with positive credit-hours and only recognized
grades, the computed ips lies in the closed interval [0, 4]. -/
theorem C7_ips_in_range (rows : List IpsRow) (hne : rows ≠ [])
    (hpos : ∀ r ∈ rows, 0 < r.sks)
    (hrec : ∀ r ∈ rows, (konversi r.nilai).isSome) :
    ∃ q : ℚ, gpaCalc rows = .ok (q, sumSks rows) ∧ 0 ≤ q ∧ q ≤ 4 := by
  refine ⟨_, gpaCalc_eq_of_pos rows hne hpos, ?_, ?_⟩
  all_goals
    have hS : 0 < sumSks rows := sumSks_pos rows hne hpos
    have hSq : (0 : ℚ) < (sumSks rows : ℚ) := by exact_mod_cast hS
    have hW0 : 0 ≤ sumWeighted rows :=
      sumWeighted_nonneg rows fun r hr => le_of_lt (hpos r hr)
    have hW4 : sumWeighted rows ≤ 4 * (sumSks rows : ℚ) :=
      sumWeighted_le rows fun r hr => le_of_lt (hpos r hr)
  · calc (0 : ℚ) = roundTo2 0 := roundTo2_zero.symm
      _ ≤ roundTo2 (sumWeighted rows / (sumSks rows : ℚ)) :=
          roundTo2_mono (div_nonneg hW0 (le_of_lt hSq))
  · calc roundTo2 (sumWeighted rows / (sumSks rows : ℚ))
        ≤ roundTo2 4 := roundTo2_mono ((div_le_iff₀ hSq).mpr (by linarith))
      _ = 4 := roundTo2_four

/-- C7 witness: scenario A lies in range. -/
theorem C7_ips_in_range_witness :
    ∃ q : ℚ, gpaCalc [pairRow "A" 3, pairRow "B+" 3] =
        .ok (q, sumSks [pairRow "A" 3, pairRow "B+" 3]) ∧ 0 ≤ q ∧ q ≤ 4 :=
  C7_ips_in_range [pairRow "A" 3, pairRow "B+" 3] (by simp)
    (by intro r hr; simp [pairRow] at hr; rcases hr with rfl | rfl <;> decide)
    (by intro r hr; simp [pairRow] at hr; rcases hr with rfl | rfl <;> rfl)

/-- C8: a single recognized pair (G, C) with positive C yields exactly the
table weight of G as ips, independently of C. -/
theorem C8_single_pair_weight (g : String) (c : ℤ) (w : ℚ) (hc : 0 < c)
    (hg : konversi g = some w) :
    gpaCalc [pairRow g c] = .ok (w, c) := by
  have hne : ([pairRow g c] : List IpsRow) ≠ [] := by simp
  have hpos : ∀ r ∈ [pairRow g c], 0 < r.sks := by
    intro r hr
    simp at hr
    subst hr
    exact hc
  have h := gpaCalc_eq_of_pos [pairRow g c] hne hpos
  have hW : sumWeighted [pairRow g c] = w * (c : ℚ) := by
    simp [sumWeighted, pairRow, bobot, hg]
  have hS : sumSks [pairRow g c] = c := by simp [sumSks, pairRow]
  rw [hW, hS] at h
  have hc' : (c : ℚ) ≠ 0 := by
    exact_mod_cast ne_of_gt hc
  rw [mul_div_assoc, div_self hc', mul_one, roundTo2_of_konversi g w hg] at h
  exact h

/-- C8 witness: the pair ("B-", 2) yields ips 11/4 = 2.75. -/
theorem C8_single_pair_weight_witness :
    gpaCalc [pairRow "B-" 2] = .ok (11/4, 2) :=
  C8_single_pair_weight "B-" 2 (11/4) (by decide) (by rfl)

/-- C9: the roster handler returns one object per fetched row, in order,
with fields nim, nama, jurusan, angkatan taken from the row's first four
columns; the response count equals the row count. -/
theorem C9_roster_preserves_rows
    (rows : List (String × String × String × ℤ)) :
    (get_mahasiswas rows).length = rows.length ∧
    ∀ (i : ℕ) (h₁ : i < (get_mahasiswas rows).length) (h₂ : i < rows.length),
      (get_mahasiswas rows).get ⟨i, h₁⟩ =
        ⟨(rows.get ⟨i, h₂⟩).1, (rows.get ⟨i, h₂⟩).2.1,
          (rows.get ⟨i, h₂⟩).2.2.1, (rows.get ⟨i, h₂⟩).2.2.2⟩ := by
  constructor
  · simp [get_mahasiswas]
  · intro i h₁ h₂
    simp [get_mahasiswas, List.get_eq_getElem, List.getElem_map]

/-- C9 witness: a one-row roster. -/
theorem C9_roster_preserves_rows_witness :
    (get_mahasiswas [("123", "Budi", "TI", 2020)]).get
        ⟨0, by simp [get_mahasiswas]⟩ = ⟨"123", "Budi", "TI", 2020⟩ :=
  (C9_roster_preserves_rows [("123", "Budi", "TI", 2020)]).2 0
    (by simp [get_mahasiswas]) (by simp)

/-- C10: every successful response of the ips endpoint reports the
requested nim, because the join query filters on `m.nim = %s` and the
response's nim is taken from the first returned row. -/
theorem C10_response_nim_equals_query (db : AcadDB) (nim : String)
    (resp : IpsResponse)
    (h : get_ips (ipsQuery db nim) = .success resp) : resp.nim = nim := by
  unfold get_ips at h
  cases hb : get_ips_body (ipsQuery db nim) with
  | error e => rw [hb] at h; exact absurd h (by simp)
  | ok r =>
    rw [hb] at h
    have hr : r = resp := by
      simpa using h
    subst hr
    unfold get_ips_body at hb
    cases hq : ipsQuery db nim with
    | nil => rw [hq] at hb; exact absurd hb (by simp)
    | cons r0 rest =>
      rw [hq] at hb
      have h0 : r0.nim = nim :=
        mem_ipsQuery db nim r0 (hq ▸ List.mem_cons_self r0 rest)
      cases hg : gpaCalc (r0 :: rest) with
      | error e => rw [hg] at hb; exact absurd hb (by simp)
      | ok p =>
        rw [hg] at hb
        have : r = ⟨r0.nim, r0.nama, r0.jurusan, p.1, p.2⟩ := by
          simpa using hb.symm
        rw [this]
        exact h0

/-- C10 witness: the sample store queried for nim "123". -/
theorem C10_response_nim_equals_query_witness :
    (IpsResponse.mk "123" "Budi" "TI" 4 3).nim = "123" :=
  C10_response_nim_equals_query sampleDB "123" ⟨"123", "Budi", "TI", 4, 3⟩
    (by simp [get_ips, get_ips_body, ipsQuery, sampleDB, gpaCalc, totals,
          bobot, konversi, roundTo2, round_eq]
        norm_num)

end AcadService
